import Mathlib

/-!
Verification of the crater agent coordination protocol: a shallow embedding
of src/server/routes/agent.rs and src/agent/mod.rs, together with models of
the persistence and auth layers they call (which live outside the provided
sources and are modelled from the specification).
-/

namespace Crater

/-- Experiment lifecycle states (spec section 4.2). -/
inductive Status where
  | queued
  | running
  | needsReport
  | generatingReport
  | completed
deriving DecidableEq

/-- Entity responsible for an experiment: a named agent or a manual trigger. -/
inductive Assignee where
  | agent (name : String)
  | manuallyTriggered
deriving DecidableEq

/-- Reference to an external tracker issue; the handler reads its api_url. -/
structure GitHubIssue where
  api_url : String
deriving DecidableEq

/-- An experiment: unique name, lifecycle status, optional assignee, optional
linked external issue, and its package work-items. -/
structure Experiment where
  name : String
  status : Status
  assignee : Option Assignee
  github_issue : Option GitHubIssue
  crates : List String
deriving DecidableEq

/-- Modelled from the spec: ProgressData is an incremental result for one
package within one experiment (src/results is not under the given sources). -/
structure ProgressData where
  package : String
  result : String
deriving DecidableEq

/-- Per-agent liveness record: last heartbeat timestamp and last known
build revision. -/
structure AgentRecord where
  lastHeartbeat : Option Nat
  gitRevision : Option String
deriving DecidableEq

/-- The persisted server state shared by all handlers: the experiment
registry, the agent registry, stored progress records, the set of
(experiment, crate) work-items already completed, the reports-worker wake
flag and the externally visible notifications that were sent. -/
structure ServerState where
  experiments : List Experiment
  agents : String → AgentRecord
  progress : List (String × String × ProgressData)
  completedCrates : List (String × String)
  reportsWorkerWoken : Bool
  notificationsSent : List (String × String)

/-- Identity resolved by the auth filter: agent name and optional revision. -/
structure AuthDetails where
  name : String
  git_revision : Option String
deriving DecidableEq

/-- An experiment is currently run by the given assignee when its status is
Running and its assignee matches. -/
def isRunBy (who : Assignee) (e : Experiment) : Bool :=
  decide (e.status = Status.running ∧ e.assignee = some who)

/-- An experiment is queued when its status is Queued. -/
def isQueued (e : Experiment) : Bool :=
  decide (e.status = Status.queued)

/-- Modelled from the spec: Experiment::run_by (src/experiments is not under
the given sources) locates the experiment currently run by the assignee. -/
def run_by (st : ServerState) (who : Assignee) : Option Experiment :=
  st.experiments.find? (isRunBy who)

/-- Set an experiment to Running with the given assignee. -/
def assignTo (e : Experiment) (who : Assignee) : Experiment :=
  { e with status := Status.running, assignee := some who }

/-- Replace the experiment with the given name in the registry. -/
def replaceExperiment (l : List Experiment) (ex : Experiment) : List Experiment :=
  l.map (fun e => if e.name = ex.name then ex else e)

/-- Modelled from the spec: Experiment::next (src/experiments is not under
the given sources). If the agent already has a Running experiment assigned,
return it unchanged with the flag false (idempotent redelivery); otherwise
atomically pick one Queued experiment, set its assignee and status Running
and return it with the flag true; return none when no work is queued. -/
def Experiment.next (st : ServerState) (who : Assignee) :
    Option (Bool × Experiment) × ServerState :=
  match run_by st who with
  | some ex => (some (false, ex), st)
  | none =>
    match st.experiments.find? isQueued with
    | some ex =>
      let assigned := assignTo ex who
      (some (true, assigned),
       { st with experiments := replaceExperiment st.experiments assigned })
    | none => (none, st)

/-- Modelled from the spec: Experiment::remove_completed_crates
(src/experiments is not under the given sources) strips from the experiment
the work-items already recorded as completed. -/
def Experiment.remove_completed_crates (st : ServerState) (ex : Experiment) :
    Experiment :=
  { ex with crates := ex.crates.filter (fun c => decide ((ex.name, c) ∉ st.completedCrates)) }

/-- Modelled from the spec: Experiment::set_status (src/experiments is not
under the given sources) persists a new status for the named experiment. -/
def set_status (st : ServerState) (nm : String) (s : Status) : ServerState :=
  { st with experiments :=
      st.experiments.map (fun e => if e.name = nm then { e with status := s } else e) }

/-- Modelled from the spec: the reports-worker wake is a coalescing signal
(src/server/reports.rs is not under the given sources). -/
def wakeReportsWorker (st : ServerState) : ServerState :=
  { st with reportsWorkerWoken := true }

/-- Modelled from the spec: DatabaseDB::store (src/results is not under the
given sources) persists a progress record keyed by experiment, agent and
package. -/
def store_progress (st : ServerState) (exName agentName : String)
    (pd : ProgressData) : ServerState :=
  { st with progress := st.progress ++ [(exName, agentName, pd)] }

/-- Modelled from the spec: Agents::set_git_revision (src/agent records on
the server side are not under the given sources) stores the revision. -/
def set_git_revision (st : ServerState) (nm rev : String) : ServerState :=
  { st with agents := fun n =>
      if n = nm then { st.agents n with gitRevision := some rev } else st.agents n }

/-- Modelled from the spec: Agents::record_heartbeat stores the current
timestamp for the agent. -/
def record_heartbeat (st : ServerState) (nm : String) (now : Nat) : ServerState :=
  { st with agents := fun n =>
      if n = nm then { st.agents n with lastHeartbeat := some now } else st.agents n }

/-- The body of the notification posted on first assignment, built as in the
handler. -/
def notificationLine (exName agentName : String) : String :=
  "Experiment **`" ++ exName ++ "`** is now **running** on agent `" ++ agentName ++ "`."

/-- Modelled from the spec: Message::send posts to the external tracker and
can fail; the sinkOk flag stands for the availability of that external
service. On success the notification is recorded as sent. -/
def sendMessage (url body : String) (sinkOk : Bool) (st : ServerState) :
    Except String ServerState :=
  if sinkOk then Except.ok { st with notificationsSent := st.notificationsSent ++ [(url, body)] }
  else Except.error "failed to send message"

/-- Handler for GET /next-experiment (endpoint_next_experiment in
src/server/routes/agent.rs): claim the next experiment; on a first
assignment with a linked issue, post the notification (its failure
propagates through the question-mark operator); strip completed work-items
from the returned experiment. -/
def endpoint_next_experiment (sinkOk : Bool) (st : ServerState)
    (auth : AuthDetails) : Except String (Option Experiment) × ServerState :=
  match Experiment.next st (Assignee.agent auth.name) with
  | (some (isNew, ex), st1) =>
    let notified : Except String ServerState :=
      if isNew then
        match ex.github_issue with
        | some issue => sendMessage issue.api_url (notificationLine ex.name auth.name) sinkOk st1
        | none => Except.ok st1
      else Except.ok st1
    match notified with
    | Except.ok st2 =>
      (Except.ok (some (Experiment.remove_completed_crates st2 ex)), st2)
    | Except.error e => (Except.error e, st1)
  | (none, st1) => (Except.ok none, st1)

/-- Handler for POST /complete-experiment (endpoint_complete_experiment in
src/server/routes/agent.rs): locate the experiment run by this agent, fail
with the ownership error when none, otherwise set it to NeedsReport and wake
the reports worker. -/
def endpoint_complete_experiment (st : ServerState) (auth : AuthDetails) :
    Except String Bool × ServerState :=
  match run_by st (Assignee.agent auth.name) with
  | none => (Except.error "no experiment run by this agent", st)
  | some ex =>
    (Except.ok true, wakeReportsWorker (set_status st ex.name Status.needsReport))

/-- Handler for POST /record-progress (endpoint_record_progress in
src/server/routes/agent.rs): locate the experiment run by this agent, fail
with the ownership error when none, otherwise persist the progress record. -/
def endpoint_record_progress (result : ProgressData) (st : ServerState)
    (auth : AuthDetails) : Except String Bool × ServerState :=
  match run_by st (Assignee.agent auth.name) with
  | none => (Except.error "no experiment run by this agent", st)
  | some ex => (Except.ok true, store_progress st ex.name auth.name result)

/-- Handler for POST /heartbeat (endpoint_heartbeat in
src/server/routes/agent.rs): store the revision only when one was supplied,
then record the heartbeat timestamp unconditionally. -/
def endpoint_heartbeat (now : Nat) (st : ServerState) (auth : AuthDetails) :
    Except String Bool × ServerState :=
  let st1 :=
    match auth.git_revision with
    | some rev => set_git_revision st auth.name rev
    | none => st
  (Except.ok true, record_heartbeat st1 auth.name now)

/-- Error classification used by the rejection handler. -/
inductive HttpError where
  | notFound
  | forbidden
deriving DecidableEq

/-- A warp rejection as observed by handle_errors: either it carries an
HttpError cause, or it is a routing rejection with a status code. -/
inductive Rejection where
  | httpError (e : HttpError)
  | notFoundStatus
  | methodNotAllowed
  | otherStatus (code : Nat)
deriving DecidableEq

/-- A wire response: status code and body. -/
structure HttpResponse where
  status : Nat
  body : String
deriving DecidableEq

/-- Modelled from the spec: the generic 500 response produced by
ApiResponse::internal_error and its serialization (src/server/api_types.rs
is not under the given sources); per the spec it carries a generic message
and never leaks internal detail. -/
def apiInternalErrorResponse : HttpResponse :=
  { status := 500, body := "an internal server error happened" }

/-- Modelled from the spec: the 404 response of ApiResponse::not_found. -/
def apiNotFoundResponse : HttpResponse :=
  { status := 404, body := "not found" }

/-- Modelled from the spec: the 403 response of ApiResponse::unauthorized. -/
def apiUnauthorizedResponse : HttpResponse :=
  { status := 403, body := "invalid authorization token" }

/-- Modelled from the spec: ApiResponse::internal_error takes the rendered
error string and produces the generic 500 response (the message content is
generic per the spec). -/
def ApiResponse.internal_error (_err : String) : HttpResponse :=
  apiInternalErrorResponse

/-- handle_results from src/server/routes/agent.rs: a successful handler
response passes through; a handler error is turned into the internal-error
response built from the rendered error. -/
def handle_results (resp : Except String HttpResponse) : HttpResponse :=
  match resp with
  | Except.ok r => r
  | Except.error e => ApiResponse.internal_error e

/-- handle_errors from src/server/routes/agent.rs: classify the rejection
(an HttpError cause, or a 404/405 routing status, otherwise unhandled) and
map NotFound and Forbidden to their fixed responses; unhandled rejections
are passed back. -/
def handle_errors (err : Rejection) : Except Rejection HttpResponse :=
  let error : Option HttpError :=
    match err with
    | Rejection.httpError e => some e
    | Rejection.notFoundStatus => some HttpError.notFound
    | Rejection.methodNotAllowed => some HttpError.notFound
    | Rejection.otherStatus _ => none
  match error with
  | some HttpError.notFound => Except.ok apiNotFoundResponse
  | some HttpError.forbidden => Except.ok apiUnauthorizedResponse
  | none => Except.error err

/-- Token classification carried by a credential (spec section 4.3:
polymorphic over AgentToken and other kinds). -/
inductive TokenType where
  | agent
  | other
deriving DecidableEq

/-- A bearer credential as classified by the gate: either syntactically
valid with a token type and resolved identity, or malformed. -/
inductive Credential where
  | valid (tt : TokenType) (nm : String) (rev : Option String)
  | malformed (raw : String)
deriving DecidableEq

/-- Modelled from the spec: auth_filter (src/server/auth.rs is not under the
given sources) resolves a credential of the required token type to an
identity and rejects any other valid-but-wrong-type credential with the
same forbidden outcome as a malformed one. -/
def auth_filter (required : TokenType) (cred : Credential) :
    Except HttpError AuthDetails :=
  match cred with
  | Credential.valid tt nm rev =>
    if tt = required then Except.ok { name := nm, git_revision := rev }
    else Except.error HttpError.forbidden
  | Credential.malformed _ => Except.error HttpError.forbidden

/-- The route pipeline wired by routes() in src/server/routes/agent.rs for
every agent endpoint: the auth filter guards the handler, handler outcomes
go through handle_results, and rejections are recovered by handle_errors
(the fallback stands for warp default rejection handling, reached only when
handle_errors passes the rejection back). -/
def agentRoute (fallback : HttpResponse)
    (h : AuthDetails → Except String HttpResponse) (cred : Credential) :
    HttpResponse :=
  match auth_filter TokenType.agent cred with
  | Except.ok auth => handle_results (h auth)
  | Except.error e =>
    match handle_errors (Rejection.httpError e) with
    | Except.ok resp => resp
    | Except.error _ => fallback

/-- One pass of the heartbeat loop body in run_heartbeat
(src/agent/mod.rs): the trace lists the outcome of each heartbeat request;
a failure is reported via report_failure and the loop moves on to the next
iteration regardless. Returns the number of iterations performed and the
failures that were reported. -/
def run_heartbeat : List (Except String Unit) → Nat × List String
  | [] => (0, [])
  | Except.ok _ :: rest =>
    let r := run_heartbeat rest
    (r.1 + 1, r.2)
  | Except.error e :: rest =>
    let r := run_heartbeat rest
    (r.1 + 1, e :: r.2)

instance {ε α : Type} [DecidableEq ε] [DecidableEq α] : DecidableEq (Except ε α) :=
  fun a b =>
    match a, b with
    | Except.ok x, Except.ok y =>
      if h : x = y then Decidable.isTrue (by rw [h]) else
        Decidable.isFalse (by intro hc; exact h (Except.ok.inj hc))
    | Except.error x, Except.error y =>
      if h : x = y then Decidable.isTrue (by rw [h]) else
        Decidable.isFalse (by intro hc; exact h (Except.error.inj hc))
    | Except.ok _, Except.error _ => Decidable.isFalse (by intro hc; exact Except.noConfusion hc)
    | Except.error _, Except.ok _ => Decidable.isFalse (by intro hc; exact Except.noConfusion hc)

/-- The three fallible calls of one main-loop iteration in run
(src/agent/mod.rs): fetch the assignment, execute it, report completion. -/
structure AgentIteration where
  fetch : Except String Experiment
  runEx : Except String Unit
  completeReport : Except String Unit
deriving DecidableEq

/-- One iteration of the agent main loop: each of the three steps is chained
with the question-mark operator, so the first failing step aborts the
iteration with its error. -/
def agent_iteration (s : AgentIteration) : Except String Unit :=
  match s.fetch with
  | Except.error e => Except.error e
  | Except.ok _ =>
    match s.runEx with
    | Except.error e => Except.error e
    | Except.ok _ => s.completeReport

/-- The agent main loop of run (src/agent/mod.rs) over a finite trace of
iteration outcomes: the first failing iteration terminates the process with
that error; otherwise the loop keeps going (returning how many iterations
the trace covered). -/
def run : List AgentIteration → Except String Nat
  | [] => Except.ok 0
  | s :: rest =>
    match agent_iteration s with
    | Except.error e => Except.error e
    | Except.ok _ =>
      match run rest with
      | Except.ok n => Except.ok (n + 1)
      | Except.error e => Except.error e

/-- The call delivered the experiment with the given name, set to Running
and assigned to the given agent. -/
def receivesExperiment (r : Except String (Option Experiment)) (qname a : String) : Bool :=
  match r with
  | Except.ok (some ex) =>
    decide (ex.name = qname ∧ ex.status = Status.running
      ∧ ex.assignee = some (Assignee.agent a))
  | _ => false

/-- The call succeeded without delivering the experiment of the given name:
either the no-work outcome or a different experiment. -/
def missesExperiment (r : Except String (Option Experiment)) (qname : String) : Bool :=
  match r with
  | Except.ok none => true
  | Except.ok (some ex) => decide (ex.name ≠ qname)
  | Except.error _ => false

/-- Look up an experiment by name in the registry. -/
def findExperiment (st : ServerState) (nm : String) : Option Experiment :=
  st.experiments.find? (fun e => decide (e.name = nm))

/-- A fresh agent record with no heartbeat and no revision. -/
def agentRecord0 : AgentRecord :=
  { lastHeartbeat := none, gitRevision := none }

/-- A server state with the given experiments and everything else empty. -/
def baseState (l : List Experiment) : ServerState :=
  { experiments := l
    agents := fun _ => agentRecord0
    progress := []
    completedCrates := []
    reportsWorkerWoken := false
    notificationsSent := [] }

/-- A queued experiment with a linked external issue. -/
def exQueuedIssue : Experiment :=
  { name := "ex1", status := Status.queued, assignee := none
    github_issue := some { api_url := "https://example.org/api/issue/1" }
    crates := ["alpha", "beta"] }

/-- A queued experiment without a linked issue. -/
def exQueuedPlain : Experiment :=
  { name := "ex2", status := Status.queued, assignee := none
    github_issue := none, crates := ["alpha", "beta"] }

/-- An experiment running under agent a. -/
def exRunningA : Experiment :=
  { name := "ra", status := Status.running, assignee := some (Assignee.agent "a")
    github_issue := none, crates := ["gamma"] }

/-- An experiment running under agent b. -/
def exRunningB : Experiment :=
  { name := "rb", status := Status.running, assignee := some (Assignee.agent "b")
    github_issue := none, crates := ["delta"] }

theorem find?_eq_head?_filter {α : Type} (p : α → Bool) (l : List α) :
    l.find? p = (l.filter p).head? := by
  induction l with
  | nil => rfl
  | cons x xs ih =>
    cases h : p x with
    | true =>
      rw [List.find?_cons_of_pos _ h, List.filter_cons_of_pos h, List.head?_cons]
    | false =>
      have h' : ¬ p x = true := by simp [h]
      rw [List.find?_cons_of_neg _ h', List.filter_cons_of_neg h', ih]

theorem eq_of_name_eq {l : List Experiment}
    (hn : (l.map Experiment.name).Nodup) {x y : Experiment}
    (hx : x ∈ l) (hy : y ∈ l) (hxy : x.name = y.name) : x = y :=
  List.inj_on_of_nodup_map hn hx hy hxy

theorem find?_map_congr {α : Type} (p : α → Bool) (f : α → α) (l : List α)
    (h : ∀ e ∈ l, f e = e ∨ (p (f e) = false ∧ p e = false)) :
    (l.map f).find? p = l.find? p := by
  induction l with
  | nil => rfl
  | cons x xs ih =>
    have hx := h x (List.mem_cons_self x xs)
    have hxs : ∀ e ∈ xs, f e = e ∨ (p (f e) = false ∧ p e = false) :=
      fun e he => h e (List.mem_cons_of_mem x he)
    cases hx with
    | inl heq =>
      cases hpx : p x with
      | true => simp [List.find?_cons, heq, hpx]
      | false => simp [List.find?_cons, heq, hpx, ih hxs]
    | inr hfalse =>
      simp [List.find?_cons, hfalse.1, hfalse.2, ih hxs]

/-- From a unique-queued hypothesis, every queued member is that experiment. -/
theorem queued_mem_eq {st : ServerState} {q : Experiment}
    (hq : st.experiments.filter isQueued = [q]) :
    ∀ e ∈ st.experiments, isQueued e = true → e = q := by
  intro e he hqe
  have : e ∈ st.experiments.filter isQueued := List.mem_filter.mpr ⟨he, hqe⟩
  rw [hq] at this
  simpa using this

/-- From a unique-queued hypothesis, the registry scan finds the experiment. -/
theorem find?_isQueued_eq {st : ServerState} {q : Experiment}
    (hq : st.experiments.filter isQueued = [q]) :
    st.experiments.find? isQueued = some q := by
  rw [find?_eq_head?_filter, hq]; rfl

/-- Redelivery branch of the claim operation: an agent with a Running
experiment gets it back unchanged, flagged as not new, with no state
change. -/
theorem next_redelivery {st : ServerState} {who : Assignee} {ex : Experiment}
    (h : run_by st who = some ex) :
    Experiment.next st who = (some (false, ex), st) := by
  unfold Experiment.next
  rw [h]

/-- Fresh-claim branch of the claim operation: an agent with no Running
experiment claims the unique queued experiment. -/
theorem next_claims_queued {st : ServerState} {who : Assignee} {q : Experiment}
    (hq : st.experiments.filter isQueued = [q])
    (hfree : run_by st who = none) :
    Experiment.next st who =
      (some (true, assignTo q who),
       { st with experiments := replaceExperiment st.experiments (assignTo q who) }) := by
  unfold Experiment.next
  rw [hfree, find?_isQueued_eq hq]

theorem queued_facts {st : ServerState} {q : Experiment}
    (hq : st.experiments.filter isQueued = [q]) :
    q ∈ st.experiments ∧ q.status = Status.queued := by
  have hmem : q ∈ st.experiments.filter isQueued := by
    rw [hq]; exact List.mem_singleton.mpr rfl
  obtain ⟨hm, hp⟩ := List.mem_filter.mp hmem
  exact ⟨hm, by simpa [isQueued] using hp⟩

theorem isRunBy_facts {who : Assignee} {e : Experiment}
    (h : isRunBy who e = true) :
    e.status = Status.running ∧ e.assignee = some who := by
  simpa [isRunBy] using h

theorem find?_replace_of_all_false (l : List Experiment) (q ex : Experiment)
    (p : Experiment → Bool)
    (hall : ∀ e ∈ l, p e = false) (hq : q ∈ l) (hname : q.name = ex.name)
    (hp : p ex = true) :
    (replaceExperiment l ex).find? p = some ex := by
  induction l with
  | nil => cases hq
  | cons x xs ih =>
    rw [replaceExperiment, List.map_cons]
    by_cases hx : x.name = ex.name
    · rw [if_pos hx, List.find?_cons_of_pos _ hp]
    · rw [if_neg hx]
      have hpx : ¬ p x = true := by
        rw [hall x (List.mem_cons_self x xs)]; simp
      rw [List.find?_cons_of_neg _ hpx]
      have hq' : q ∈ xs := by
        rcases List.mem_cons.mp hq with h | h
        · exfalso; apply hx; rw [← h]; exact hname
        · exact h
      exact ih (fun e he => hall e (List.mem_cons_of_mem x he)) hq'

theorem find?_replace_congr (l : List Experiment) (q ex : Experiment)
    (p : Experiment → Bool)
    (hnodup : (l.map Experiment.name).Nodup) (hq : q ∈ l)
    (hname : q.name = ex.name) (hpq : p q = false) (hpex : p ex = false) :
    (replaceExperiment l ex).find? p = l.find? p := by
  apply find?_map_congr
  intro e he
  by_cases hx : e.name = ex.name
  · right
    have heq : e = q := eq_of_name_eq hnodup he hq (by rw [hx, ← hname])
    refine ⟨?_, ?_⟩
    · simp only [if_pos hx]; exact hpex
    · rw [heq]; exact hpq
  · left; simp only [if_neg hx]

theorem find?_queued_replace_none (l : List Experiment) (q : Experiment)
    (who : Assignee)
    (hall : ∀ e ∈ l, isQueued e = true → e = q) :
    (replaceExperiment l (assignTo q who)).find? isQueued = none := by
  rw [List.find?_eq_none]
  intro x hx
  rcases List.mem_map.mp hx with ⟨e, he, rfl⟩
  by_cases hn : e.name = (assignTo q who).name
  · rw [if_pos hn]; simp [isQueued, assignTo]
  · rw [if_neg hn]
    intro hqe
    apply hn
    rw [hall e he hqe]
    rfl

/-- After a fresh claim the claiming agent is recorded as running the
assigned experiment. -/
theorem run_by_after_claim {st : ServerState} {who : Assignee} {q : Experiment}
    (hq : st.experiments.filter isQueued = [q])
    (hfree : run_by st who = none) :
    (replaceExperiment st.experiments (assignTo q who)).find? (isRunBy who)
      = some (assignTo q who) := by
  apply find?_replace_of_all_false st.experiments q (assignTo q who) (isRunBy who)
  · intro e he
    have := List.find?_eq_none.mp hfree e he
    simpa using this
  · exact (queued_facts hq).1
  · rfl
  · simp [isRunBy, assignTo]

/-- A fresh claim by one agent does not change what another agent is
running. -/
theorem run_by_other_after_claim {st : ServerState} {a b : String}
    {q : Experiment} (hab : a ≠ b)
    (hnodup : (st.experiments.map Experiment.name).Nodup)
    (hq : st.experiments.filter isQueued = [q]) :
    (replaceExperiment st.experiments (assignTo q (Assignee.agent a))).find?
        (isRunBy (Assignee.agent b))
      = st.experiments.find? (isRunBy (Assignee.agent b)) := by
  apply find?_replace_congr st.experiments q (assignTo q (Assignee.agent a))
    (isRunBy (Assignee.agent b)) hnodup (queued_facts hq).1 rfl
  · simp [isRunBy, (queued_facts hq).2]
  · simp [isRunBy, assignTo, hab]

theorem rcc_name (st : ServerState) (ex : Experiment) :
    (Experiment.remove_completed_crates st ex).name = ex.name := rfl

theorem rcc_status (st : ServerState) (ex : Experiment) :
    (Experiment.remove_completed_crates st ex).status = ex.status := rfl

theorem rcc_assignee (st : ServerState) (ex : Experiment) :
    (Experiment.remove_completed_crates st ex).assignee = ex.assignee := rfl

/-- Redelivery at the endpoint level: the handler returns the experiment the
agent already runs, with completed work-items stripped, and changes no
state. -/
theorem endpoint_next_redelivery (sinkOk : Bool) (st : ServerState)
    (auth : AuthDetails) {ex : Experiment}
    (h : run_by st (Assignee.agent auth.name) = some ex) :
    endpoint_next_experiment sinkOk st auth
      = (Except.ok (some (Experiment.remove_completed_crates st ex)), st) := by
  unfold endpoint_next_experiment
  rw [next_redelivery h]
  rfl

/-- No-work at the endpoint level. -/
theorem endpoint_next_no_work {st : ServerState} {auth : AuthDetails}
    (sinkOk : Bool)
    (h1 : run_by st (Assignee.agent auth.name) = none)
    (h2 : st.experiments.find? isQueued = none) :
    endpoint_next_experiment sinkOk st auth = (Except.ok none, st) := by
  unfold endpoint_next_experiment
  unfold Experiment.next
  rw [h1, h2]

/-- Fresh claim at the endpoint level with a working notification sink: the
handler returns the queued experiment assigned to the agent (stripped of
completed work-items) and the resulting registry records the assignment. -/
theorem endpoint_next_fresh (st : ServerState) (auth : AuthDetails)
    {q : Experiment}
    (hq : st.experiments.filter isQueued = [q])
    (hfree : run_by st (Assignee.agent auth.name) = none) :
    (endpoint_next_experiment true st auth).1
      = Except.ok (some (Experiment.remove_completed_crates
          (endpoint_next_experiment true st auth).2
          (assignTo q (Assignee.agent auth.name))))
    ∧ (endpoint_next_experiment true st auth).2.experiments
      = replaceExperiment st.experiments (assignTo q (Assignee.agent auth.name)) := by
  unfold endpoint_next_experiment
  rw [next_claims_queued hq hfree]
  obtain ⟨qn, qs, qa, qg, qc⟩ := q
  cases qg with
  | none => exact ⟨rfl, rfl⟩
  | some issue => exact ⟨rfl, rfl⟩

/-- A running experiment found in a registry whose unique queued experiment
is q cannot have the name of q. -/
theorem running_name_ne_queued {st : ServerState} {q : Experiment}
    (hnodup : (st.experiments.map Experiment.name).Nodup)
    (hq : st.experiments.filter isQueued = [q])
    {who : Assignee} {ex : Experiment}
    (h : st.experiments.find? (isRunBy who) = some ex) :
    ex.name ≠ q.name := by
  intro hne
  have hmem := List.mem_of_find?_eq_some h
  have hpr := List.find?_some h
  have heq : ex = q := eq_of_name_eq hnodup hmem (queued_facts hq).1 hne
  have hst := (isRunBy_facts hpr).1
  rw [heq, (queued_facts hq).2] at hst
  exact Status.noConfusion hst

/-- Claim C1 (amended): with experiment names unique, exactly one Queued
experiment q, two distinct agent names a and b of which at least one has no
Running experiment currently assigned, and a working notification sink, the
two next-experiment calls (modelled in both interleavings of the atomic
claim, here as a then b; the statement is symmetric in a and b) hand q to
exactly one of the callers, set to Running and assigned to that caller,
while the other call gets a different experiment or the no-work outcome; in
particular q is never handed to both. The hypothesis that not both callers
are already assigned Running experiments is the amendment: without it both
calls are idempotent redeliveries and nobody receives q. -/
theorem next_experiment_single_queued_exactly_one
    (st : ServerState) (a b : String) (q : Experiment)
    (hab : a ≠ b)
    (hnodup : (st.experiments.map Experiment.name).Nodup)
    (hq : st.experiments.filter isQueued = [q])
    (hfree : run_by st (Assignee.agent a) = none
      ∨ run_by st (Assignee.agent b) = none) :
    (receivesExperiment (endpoint_next_experiment true st ⟨a, none⟩).1 q.name a = true
      ∧ missesExperiment
          (endpoint_next_experiment true
            (endpoint_next_experiment true st ⟨a, none⟩).2 ⟨b, none⟩).1 q.name = true)
    ∨ (receivesExperiment
          (endpoint_next_experiment true
            (endpoint_next_experiment true st ⟨a, none⟩).2 ⟨b, none⟩).1 q.name b = true
      ∧ missesExperiment (endpoint_next_experiment true st ⟨a, none⟩).1 q.name = true) := by
  cases hA : run_by st (Assignee.agent a) with
  | some exa =>
    have hB : run_by st (Assignee.agent b) = none := by
      rcases hfree with h | h
      · rw [hA] at h; cases h
      · exact h
    have h1 := endpoint_next_redelivery true st ⟨a, none⟩ hA
    have h2 := endpoint_next_fresh st ⟨b, none⟩ hq hB
    have hexaname : exa.name ≠ q.name := running_name_ne_queued hnodup hq hA
    right
    rw [h1]
    constructor
    · rw [h2.1]
      simp [receivesExperiment, rcc_name, rcc_status, rcc_assignee, assignTo]
    · simp [missesExperiment, rcc_name, hexaname]
  | none =>
    have h1 := endpoint_next_fresh st ⟨a, none⟩ hq hA
    left
    constructor
    · rw [h1.1]
      simp [receivesExperiment, rcc_name, rcc_status, rcc_assignee, assignTo]
    · have hrb : run_by (endpoint_next_experiment true st ⟨a, none⟩).2 (Assignee.agent b)
          = st.experiments.find? (isRunBy (Assignee.agent b)) := by
        rw [run_by, h1.2]
        exact run_by_other_after_claim hab hnodup hq
      cases hB : st.experiments.find? (isRunBy (Assignee.agent b)) with
      | some exb =>
        have hrb2 : run_by (endpoint_next_experiment true st ⟨a, none⟩).2 (Assignee.agent b)
            = some exb := by rw [hrb, hB]
        rw [endpoint_next_redelivery true (endpoint_next_experiment true st ⟨a, none⟩).2 ⟨b, none⟩ hrb2]
        have hexbname : exb.name ≠ q.name := running_name_ne_queued hnodup hq hB
        simp [missesExperiment, rcc_name, hexbname]
      | none =>
        have hrb2 : run_by (endpoint_next_experiment true st ⟨a, none⟩).2 (Assignee.agent b)
            = none := by rw [hrb, hB]
        have hq2 : (endpoint_next_experiment true st ⟨a, none⟩).2.experiments.find? isQueued
            = none := by
          rw [h1.2]; exact find?_queued_replace_none _ _ _ (queued_mem_eq hq)
        rw [endpoint_next_no_work true hrb2 hq2]
        simp [missesExperiment]

/-- Claim C1 counterexample: when both callers already have Running
experiments assigned, exactly one Queued experiment exists and the agents
are distinct, yet neither of the two next-experiment calls receives the
queued experiment, contradicting the claim that exactly one of them does. -/
theorem next_experiment_both_assigned_nobody_gets_queued :
    (baseState [exRunningA, exRunningB, exQueuedPlain]).experiments.filter isQueued
        = [exQueuedPlain]
    ∧ ("a" : String) ≠ "b"
    ∧ receivesExperiment
        (endpoint_next_experiment true
          (baseState [exRunningA, exRunningB, exQueuedPlain]) ⟨"a", none⟩).1
        "ex2" "a" = false
    ∧ receivesExperiment
        (endpoint_next_experiment true
          (endpoint_next_experiment true
            (baseState [exRunningA, exRunningB, exQueuedPlain]) ⟨"a", none⟩).2
          ⟨"b", none⟩).1
        "ex2" "b" = false := by
  refine ⟨by decide, by decide, ?_, ?_⟩ <;> decide

/-- Claim C1 witness: the amended theorem applied to a state with one
queued experiment and two fresh agents. -/
theorem next_experiment_single_queued_exactly_one_witness :
    (("a" : String) ≠ "b"
      ∧ ((baseState [exQueuedPlain]).experiments.map Experiment.name).Nodup
      ∧ (baseState [exQueuedPlain]).experiments.filter isQueued = [exQueuedPlain]
      ∧ run_by (baseState [exQueuedPlain]) (Assignee.agent "a") = none)
    ∧ ((receivesExperiment
          (endpoint_next_experiment true (baseState [exQueuedPlain]) ⟨"a", none⟩).1
          "ex2" "a" = true
        ∧ missesExperiment
            (endpoint_next_experiment true
              (endpoint_next_experiment true (baseState [exQueuedPlain]) ⟨"a", none⟩).2
              ⟨"b", none⟩).1 "ex2" = true)
      ∨ (receivesExperiment
            (endpoint_next_experiment true
              (endpoint_next_experiment true (baseState [exQueuedPlain]) ⟨"a", none⟩).2
              ⟨"b", none⟩).1 "ex2" "b" = true
        ∧ missesExperiment
            (endpoint_next_experiment true (baseState [exQueuedPlain]) ⟨"a", none⟩).1
            "ex2" = true)) :=
  ⟨⟨by decide, by decide, by decide, by decide⟩,
   next_experiment_single_queued_exactly_one (baseState [exQueuedPlain]) "a" "b"
     exQueuedPlain (by decide) (by decide) (by decide) (Or.inl (by decide))⟩

/-- Claim C2 (amended): when the claim operation performs a first assignment
of an experiment with a linked external issue and the notification send
fails, the assignment is not rolled back — the experiment is durably
Running and assigned to the agent — but the handler does not log and
continue: the send failure propagates through the question-mark operator,
the call fails instead of returning the claimed experiment, and the agent
only obtains the experiment on its next call, which redelivers it without
sending a notification. -/
theorem next_experiment_notify_failure
    (sinkOk2 : Bool) (st : ServerState) (auth : AuthDetails)
    (q : Experiment) (issue : GitHubIssue)
    (hq : st.experiments.filter isQueued = [q])
    (hfree : run_by st (Assignee.agent auth.name) = none)
    (hissue : q.github_issue = some issue) :
    (endpoint_next_experiment false st auth).1
        = Except.error "failed to send message"
    ∧ run_by (endpoint_next_experiment false st auth).2 (Assignee.agent auth.name)
        = some (assignTo q (Assignee.agent auth.name))
    ∧ endpoint_next_experiment sinkOk2 (endpoint_next_experiment false st auth).2 auth
        = (Except.ok (some (Experiment.remove_completed_crates
            (endpoint_next_experiment false st auth).2
            (assignTo q (Assignee.agent auth.name)))),
           (endpoint_next_experiment false st auth).2) := by
  have hkey : endpoint_next_experiment false st auth
      = (Except.error "failed to send message",
         { st with experiments :=
             replaceExperiment st.experiments (assignTo q (Assignee.agent auth.name)) }) := by
    unfold endpoint_next_experiment
    rw [next_claims_queued hq hfree]
    dsimp only
    rw [show (assignTo q (Assignee.agent auth.name)).github_issue = some issue from hissue]
    rfl
  have hrun : run_by (endpoint_next_experiment false st auth).2 (Assignee.agent auth.name)
      = some (assignTo q (Assignee.agent auth.name)) := by
    rw [hkey]
    exact run_by_after_claim hq hfree
  exact ⟨by rw [hkey], hrun,
    endpoint_next_redelivery sinkOk2 (endpoint_next_experiment false st auth).2 auth hrun⟩

/-- Claim C2 counterexample: with one queued experiment carrying a linked
issue and a failing notification sink, the first next-experiment call does
commit the assignment (the experiment is recorded as Running under the
agent) but the call itself fails with the propagated send error, so the
claimed experiment is not returned successfully to the agent. -/
theorem next_experiment_notify_failure_not_returned :
    (endpoint_next_experiment false (baseState [exQueuedIssue]) ⟨"a", none⟩).1
        = Except.error "failed to send message"
    ∧ run_by (endpoint_next_experiment false (baseState [exQueuedIssue]) ⟨"a", none⟩).2
        (Assignee.agent "a")
        = some (assignTo exQueuedIssue (Assignee.agent "a")) := by
  constructor <;> decide

/-- Claim C2 witness: the amended theorem applied to a concrete state with
one queued experiment carrying a linked issue. -/
theorem next_experiment_notify_failure_witness :
    ((baseState [exQueuedIssue]).experiments.filter isQueued = [exQueuedIssue]
      ∧ run_by (baseState [exQueuedIssue]) (Assignee.agent "a") = none
      ∧ exQueuedIssue.github_issue
          = some { api_url := "https://example.org/api/issue/1" })
    ∧ ((endpoint_next_experiment false (baseState [exQueuedIssue]) ⟨"a", none⟩).1
          = Except.error "failed to send message"
      ∧ run_by (endpoint_next_experiment false (baseState [exQueuedIssue]) ⟨"a", none⟩).2
          (Assignee.agent "a")
          = some (assignTo exQueuedIssue (Assignee.agent "a"))
      ∧ endpoint_next_experiment true
            (endpoint_next_experiment false (baseState [exQueuedIssue]) ⟨"a", none⟩).2
            ⟨"a", none⟩
          = (Except.ok (some (Experiment.remove_completed_crates
              (endpoint_next_experiment false (baseState [exQueuedIssue]) ⟨"a", none⟩).2
              (assignTo exQueuedIssue (Assignee.agent "a")))),
             (endpoint_next_experiment false (baseState [exQueuedIssue]) ⟨"a", none⟩).2)) :=
  ⟨⟨by decide, by decide, by decide⟩,
   next_experiment_notify_failure true (baseState [exQueuedIssue]) ⟨"a", none⟩
     exQueuedIssue { api_url := "https://example.org/api/issue/1" }
     (by decide) (by decide) (by decide)⟩

theorem find?_name_set_status (l : List Experiment) (ex : Experiment) (s : Status)
    (hnodup : (l.map Experiment.name).Nodup) (hmem : ex ∈ l) :
    (l.map (fun e => if e.name = ex.name then { e with status := s } else e)).find?
        (fun e => decide (e.name = ex.name)) = some { ex with status := s } := by
  induction l with
  | nil => cases hmem
  | cons x xs ih =>
    rw [List.map_cons]
    by_cases hx : x.name = ex.name
    · rw [if_pos hx]
      have hxex : x = ex :=
        eq_of_name_eq hnodup (List.mem_cons_self x xs) hmem hx
      rw [hxex]
      apply List.find?_cons_of_pos
      simp
    · rw [if_neg hx]
      rw [List.find?_cons_of_neg]
      · apply ih
        · exact (List.nodup_cons.mp (by simpa using hnodup)).2
        · rcases List.mem_cons.mp hmem with h | h
          · exfalso; apply hx; rw [h]
          · exact h
      · simp [hx]

theorem run_by_set_status_none (l : List Experiment) (ex : Experiment)
    (who : Assignee) (hmine : l.filter (isRunBy who) = [ex]) :
    (l.map (fun e =>
        if e.name = ex.name then { e with status := Status.needsReport } else e)).find?
      (isRunBy who) = none := by
  rw [List.find?_eq_none]
  intro x hx
  rcases List.mem_map.mp hx with ⟨e, he, rfl⟩
  by_cases hn : e.name = ex.name
  · rw [if_pos hn]; simp [isRunBy]
  · rw [if_neg hn]
    intro hrb
    have hmem : e ∈ l.filter (isRunBy who) := List.mem_filter.mpr ⟨he, hrb⟩
    rw [hmine] at hmem
    exact hn (by rw [List.mem_singleton.mp hmem])

/-- Claim C3: for an agent whose one assigned experiment is Running, the
first complete call succeeds, persists the transition to NeedsReport for
that experiment and wakes the reports worker; a second complete call by the
same agent on the resulting state fails with the ownership error and leaves
the state unchanged. -/
theorem complete_experiment_transitions_once
    (st : ServerState) (a : String) (ex : Experiment)
    (hnodup : (st.experiments.map Experiment.name).Nodup)
    (hmine : st.experiments.filter (isRunBy (Assignee.agent a)) = [ex]) :
    (endpoint_complete_experiment st ⟨a, none⟩).1 = Except.ok true
    ∧ findExperiment (endpoint_complete_experiment st ⟨a, none⟩).2 ex.name
        = some { ex with status := Status.needsReport }
    ∧ (endpoint_complete_experiment st ⟨a, none⟩).2.reportsWorkerWoken = true
    ∧ endpoint_complete_experiment (endpoint_complete_experiment st ⟨a, none⟩).2 ⟨a, none⟩
        = (Except.error "no experiment run by this agent",
           (endpoint_complete_experiment st ⟨a, none⟩).2) := by
  have hrun : run_by st (Assignee.agent a) = some ex := by
    rw [run_by, find?_eq_head?_filter, hmine]; rfl
  have hmem : ex ∈ st.experiments := by
    have : ex ∈ st.experiments.filter (isRunBy (Assignee.agent a)) := by
      rw [hmine]; exact List.mem_singleton.mpr rfl
    exact (List.mem_filter.mp this).1
  have hkey : endpoint_complete_experiment st ⟨a, none⟩
      = (Except.ok true, wakeReportsWorker (set_status st ex.name Status.needsReport)) := by
    unfold endpoint_complete_experiment
    dsimp only
    rw [hrun]
  have hnone : run_by (wakeReportsWorker (set_status st ex.name Status.needsReport))
      (Assignee.agent a) = none :=
    run_by_set_status_none st.experiments ex (Assignee.agent a) hmine
  refine ⟨by rw [hkey], ?_, by rw [hkey]; rfl, ?_⟩
  · rw [hkey]
    exact find?_name_set_status st.experiments ex Status.needsReport hnodup hmem
  · rw [hkey]
    unfold endpoint_complete_experiment
    dsimp only
    rw [hnone]

/-- Claim C3 witness: the theorem applied to a state where agent a runs
exactly one experiment. -/
theorem complete_experiment_transitions_once_witness :
    (((baseState [exRunningA]).experiments.map Experiment.name).Nodup
      ∧ (baseState [exRunningA]).experiments.filter (isRunBy (Assignee.agent "a"))
          = [exRunningA])
    ∧ ((endpoint_complete_experiment (baseState [exRunningA]) ⟨"a", none⟩).1
          = Except.ok true
      ∧ findExperiment (endpoint_complete_experiment (baseState [exRunningA]) ⟨"a", none⟩).2
            "ra" = some { exRunningA with status := Status.needsReport }
      ∧ (endpoint_complete_experiment (baseState [exRunningA]) ⟨"a", none⟩).2.reportsWorkerWoken
          = true
      ∧ endpoint_complete_experiment
            (endpoint_complete_experiment (baseState [exRunningA]) ⟨"a", none⟩).2 ⟨"a", none⟩
          = (Except.error "no experiment run by this agent",
             (endpoint_complete_experiment (baseState [exRunningA]) ⟨"a", none⟩).2)) :=
  ⟨⟨by decide, by decide⟩,
   complete_experiment_transitions_once (baseState [exRunningA]) "a" exRunningA
     (by decide) (by decide)⟩

/-- Claim C4: an agent that already has a Running experiment assigned gets
that same experiment back from a repeated next-experiment call — same name,
status and assignee, only with completed work-items stripped — with no
state change at all (in particular the notification log is untouched, so no
notification is sent), regardless of the notification sink. -/
theorem next_experiment_idempotent
    (sinkOk : Bool) (st : ServerState) (a : String) (ex : Experiment)
    (hrun : run_by st (Assignee.agent a) = some ex) :
    endpoint_next_experiment sinkOk st ⟨a, none⟩
        = (Except.ok (some (Experiment.remove_completed_crates st ex)), st)
    ∧ (Experiment.remove_completed_crates st ex).name = ex.name
    ∧ (Experiment.remove_completed_crates st ex).status = ex.status
    ∧ (Experiment.remove_completed_crates st ex).assignee = ex.assignee
    ∧ (endpoint_next_experiment sinkOk st ⟨a, none⟩).2.notificationsSent
        = st.notificationsSent := by
  have h := endpoint_next_redelivery sinkOk st ⟨a, none⟩ hrun
  exact ⟨h, rfl, rfl, rfl, by rw [h]⟩

/-- Claim C4 witness: the theorem applied to a state where agent a already
runs an experiment, with a failing sink (no notification is even possible). -/
theorem next_experiment_idempotent_witness :
    run_by (baseState [exRunningA]) (Assignee.agent "a") = some exRunningA
    ∧ (endpoint_next_experiment false (baseState [exRunningA]) ⟨"a", none⟩
        = (Except.ok (some (Experiment.remove_completed_crates
            (baseState [exRunningA]) exRunningA)), baseState [exRunningA])
      ∧ (Experiment.remove_completed_crates (baseState [exRunningA]) exRunningA).name
          = exRunningA.name
      ∧ (Experiment.remove_completed_crates (baseState [exRunningA]) exRunningA).status
          = exRunningA.status
      ∧ (Experiment.remove_completed_crates (baseState [exRunningA]) exRunningA).assignee
          = exRunningA.assignee
      ∧ (endpoint_next_experiment false (baseState [exRunningA]) ⟨"a", none⟩).2.notificationsSent
          = (baseState [exRunningA]).notificationsSent) :=
  ⟨by decide,
   next_experiment_idempotent false (baseState [exRunningA]) "a" exRunningA (by decide)⟩

/-- Claim C5: every heartbeat call succeeds and updates the stored
last-heartbeat timestamp unconditionally — for any server state, in
particular one where the agent has no assignment, and whether or not a
revision is supplied — while the stored revision is updated only when a
revision is supplied and is left unchanged otherwise; the experiment
registry is untouched. -/
theorem heartbeat_updates
    (now : Nat) (st : ServerState) (a : String) (rev : Option String) :
    (endpoint_heartbeat now st ⟨a, rev⟩).1 = Except.ok true
    ∧ ((endpoint_heartbeat now st ⟨a, rev⟩).2.agents a).lastHeartbeat = some now
    ∧ ((endpoint_heartbeat now st ⟨a, rev⟩).2.agents a).gitRevision
        = (match rev with
           | some r => some r
           | none => (st.agents a).gitRevision)
    ∧ (endpoint_heartbeat now st ⟨a, rev⟩).2.experiments = st.experiments := by
  cases rev with
  | none =>
    refine ⟨rfl, ?_, ?_, rfl⟩ <;>
      simp [endpoint_heartbeat, record_heartbeat]
  | some r =>
    refine ⟨rfl, ?_, ?_, rfl⟩ <;>
      simp [endpoint_heartbeat, record_heartbeat, set_git_revision]

/-- Claim C6: a record-progress call from an agent with no experiment
running under its name fails with the ownership error and changes nothing,
while a call from the current assignee appends exactly the progress record
keyed by experiment, agent and package, leaving the experiment registry —
hence every status and assignee — unchanged. -/
theorem record_progress_ownership
    (st0 st1 : ServerState) (a : String) (pd : ProgressData) (ex : Experiment)
    (hno : run_by st0 (Assignee.agent a) = none)
    (hyes : run_by st1 (Assignee.agent a) = some ex) :
    endpoint_record_progress pd st0 ⟨a, none⟩
        = (Except.error "no experiment run by this agent", st0)
    ∧ endpoint_record_progress pd st1 ⟨a, none⟩
        = (Except.ok true, store_progress st1 ex.name a pd)
    ∧ (store_progress st1 ex.name a pd).experiments = st1.experiments
    ∧ (store_progress st1 ex.name a pd).progress
        = st1.progress ++ [(ex.name, a, pd)] := by
  refine ⟨?_, ?_, rfl, rfl⟩
  · unfold endpoint_record_progress; dsimp only; rw [hno]
  · unfold endpoint_record_progress; dsimp only; rw [hyes]

/-- Claim C6 witness: the theorem applied to an empty registry (no
assignment) and to a registry where agent a runs an experiment. -/
theorem record_progress_ownership_witness :
    (run_by (baseState []) (Assignee.agent "a") = none
      ∧ run_by (baseState [exRunningA]) (Assignee.agent "a") = some exRunningA)
    ∧ (endpoint_record_progress { package := "foo", result := "ok" } (baseState [])
          ⟨"a", none⟩
        = (Except.error "no experiment run by this agent", baseState [])
      ∧ endpoint_record_progress { package := "foo", result := "ok" }
          (baseState [exRunningA]) ⟨"a", none⟩
        = (Except.ok true, store_progress (baseState [exRunningA]) "ra" "a"
            { package := "foo", result := "ok" })
      ∧ (store_progress (baseState [exRunningA]) "ra" "a"
          { package := "foo", result := "ok" }).experiments
        = (baseState [exRunningA]).experiments
      ∧ (store_progress (baseState [exRunningA]) "ra" "a"
          { package := "foo", result := "ok" }).progress
        = (baseState [exRunningA]).progress
            ++ [("ra", "a", { package := "foo", result := "ok" })]) :=
  ⟨⟨by decide, by decide⟩,
   record_progress_ownership (baseState []) (baseState [exRunningA]) "a"
     { package := "foo", result := "ok" } exRunningA (by decide) (by decide)⟩

/-- Claim C7: whenever the auth filter admits the request and the handler
fails with any internal error, the full route responds with the fixed
internal-error response — status 500 with a generic body that does not
depend on the error (the response is one constant, so its content is
independent of the internal detail). The generic body itself is modelled
from the spec, since the response serialization is outside the given
sources. -/
theorem internal_error_is_generic
    (fallback : HttpResponse) (h : AuthDetails → Except String HttpResponse)
    (cred : Credential) (auth : AuthDetails) (e : String)
    (hauth : auth_filter TokenType.agent cred = Except.ok auth)
    (herr : h auth = Except.error e) :
    agentRoute fallback h cred = apiInternalErrorResponse
    ∧ apiInternalErrorResponse.status = 500 := by
  constructor
  · unfold agentRoute
    rw [hauth]
    dsimp only
    unfold handle_results
    rw [herr]
    rfl
  · rfl

/-- Claim C7 witness: a handler that always fails with a concrete error
behind a valid agent credential produces the generic 500 response. -/
theorem internal_error_is_generic_witness :
    (auth_filter TokenType.agent (Credential.valid TokenType.agent "a" none)
        = Except.ok { name := "a", git_revision := none }
      ∧ (fun _ : AuthDetails => (Except.error "db broke" : Except String HttpResponse))
          { name := "a", git_revision := none } = Except.error "db broke")
    ∧ (agentRoute apiNotFoundResponse
          (fun _ : AuthDetails => (Except.error "db broke" : Except String HttpResponse))
          (Credential.valid TokenType.agent "a" none)
        = apiInternalErrorResponse
      ∧ apiInternalErrorResponse.status = 500) :=
  ⟨⟨by decide, rfl⟩,
   internal_error_is_generic apiNotFoundResponse
     (fun _ => Except.error "db broke") (Credential.valid TokenType.agent "a" none)
     { name := "a", git_revision := none } "db broke" (by decide) rfl⟩

/-- Claim C8: on any agent route (the handler is universally quantified), a
syntactically valid credential of a wrong token type and a malformed
credential produce the identical response, that response is the forbidden
403 one, and it is not the not-found response — so nothing observable
distinguishes wrong-type from invalid. -/
theorem wrong_type_credential_indistinguishable
    (fallback : HttpResponse) (h : AuthDetails → Except String HttpResponse)
    (tt : TokenType) (nm : String) (rev : Option String) (raw : String)
    (htt : tt ≠ TokenType.agent) :
    agentRoute fallback h (Credential.valid tt nm rev)
        = agentRoute fallback h (Credential.malformed raw)
    ∧ agentRoute fallback h (Credential.valid tt nm rev) = apiUnauthorizedResponse
    ∧ apiUnauthorizedResponse.status = 403
    ∧ agentRoute fallback h (Credential.valid tt nm rev) ≠ apiNotFoundResponse := by
  have h1 : agentRoute fallback h (Credential.valid tt nm rev)
      = apiUnauthorizedResponse := by
    unfold agentRoute auth_filter
    dsimp only
    rw [if_neg htt]
    rfl
  have h2 : agentRoute fallback h (Credential.malformed raw)
      = apiUnauthorizedResponse := rfl
  refine ⟨by rw [h1, h2], h1, rfl, by rw [h1]; decide⟩

/-- Claim C8 witness: a wrong-type credential and a malformed credential
against a concrete handler. -/
theorem wrong_type_credential_indistinguishable_witness :
    TokenType.other ≠ TokenType.agent
    ∧ (agentRoute apiNotFoundResponse
          (fun _ : AuthDetails => (Except.ok apiNotFoundResponse : Except String HttpResponse))
          (Credential.valid TokenType.other "x" none)
        = agentRoute apiNotFoundResponse
            (fun _ : AuthDetails => (Except.ok apiNotFoundResponse : Except String HttpResponse))
            (Credential.malformed "garbage")
      ∧ agentRoute apiNotFoundResponse
          (fun _ : AuthDetails => (Except.ok apiNotFoundResponse : Except String HttpResponse))
          (Credential.valid TokenType.other "x" none) = apiUnauthorizedResponse
      ∧ apiUnauthorizedResponse.status = 403
      ∧ agentRoute apiNotFoundResponse
          (fun _ : AuthDetails => (Except.ok apiNotFoundResponse : Except String HttpResponse))
          (Credential.valid TokenType.other "x" none) ≠ apiNotFoundResponse) :=
  ⟨by decide,
   wrong_type_credential_indistinguishable apiNotFoundResponse
     (fun _ => Except.ok apiNotFoundResponse) TokenType.other "x" none "garbage"
     (by decide)⟩

/-- A main-loop iteration whose three calls all succeed. -/
def goodIteration : AgentIteration :=
  { fetch := Except.ok exRunningA, runEx := Except.ok (), completeReport := Except.ok () }

/-- A main-loop iteration whose execute step fails. -/
def badIteration : AgentIteration :=
  { fetch := Except.ok exRunningA, runEx := Except.error "build failed"
    completeReport := Except.ok () }

/-- Claim C9: over any finite trace of heartbeat outcomes the heartbeat loop
performs one iteration per outcome — a failed heartbeat never terminates the
loop — and the reported (logged) failures are exactly the failures in the
trace; whereas the agent main loop terminates with the error of the first
failing iteration (a failure of fetch, execute or completion report),
whatever iterations would have followed. -/
theorem heartbeat_soft_main_loop_fatal
    (t : List (Except String Unit)) (pre : List AgentIteration)
    (s : AgentIteration) (rest : List AgentIteration) (e : String)
    (hpre : ∀ x ∈ pre, agent_iteration x = Except.ok ())
    (hs : agent_iteration s = Except.error e) :
    (run_heartbeat t).1 = t.length
    ∧ (run_heartbeat t).2
        = t.filterMap (fun r =>
            match r with
            | Except.error m => some m
            | Except.ok _ => none)
    ∧ run (pre ++ s :: rest) = Except.error e := by
  refine ⟨?_, ?_, ?_⟩
  · induction t with
    | nil => rfl
    | cons x xs ih => cases x <;> simp [run_heartbeat, ih]
  · induction t with
    | nil => rfl
    | cons x xs ih => cases x <;> simp [run_heartbeat, List.filterMap_cons, ih]
  · revert hpre
    induction pre with
    | nil =>
      intro _
      rw [List.nil_append]
      unfold run
      rw [hs]
    | cons x xs ih =>
      intro hpre
      rw [List.cons_append]
      unfold run
      rw [hpre x (List.mem_cons_self x xs),
        ih (fun y hy => hpre y (List.mem_cons_of_mem x hy))]

/-- Claim C9 witness: a heartbeat trace with one failure is fully processed
with that failure logged, and a main loop with one good iteration followed
by a failing one stops with its error even though more work follows. -/
theorem heartbeat_soft_main_loop_fatal_witness :
    ((∀ x ∈ [goodIteration], agent_iteration x = Except.ok ())
      ∧ agent_iteration badIteration = Except.error "build failed")
    ∧ ((run_heartbeat [Except.ok (), Except.error "no route to host"]).1
          = ([Except.ok (), Except.error "no route to host"] : List (Except String Unit)).length
      ∧ (run_heartbeat [Except.ok (), Except.error "no route to host"]).2
          = ([Except.ok (), Except.error "no route to host"] : List (Except String Unit)).filterMap
              (fun r =>
                match r with
                | Except.error m => some m
                | Except.ok _ => none)
      ∧ run ([goodIteration] ++ badIteration :: [goodIteration])
          = Except.error "build failed") :=
  ⟨⟨by decide, by decide⟩,
   heartbeat_soft_main_loop_fatal [Except.ok (), Except.error "no route to host"]
     [goodIteration] badIteration [goodIteration] "build failed"
     (by decide) (by decide)⟩

/-- Claim C10: every experiment successfully returned by the
next-experiment handler — on a first assignment as well as on idempotent
redelivery — has the work-items already recorded as completed stripped from
it: none of the returned work-items is in the completed set, which the
handler leaves unchanged. -/
theorem next_experiment_strips_completed
    (sinkOk : Bool) (st : ServerState) (auth : AuthDetails)
    (ex : Experiment) (st2 : ServerState)
    (h : endpoint_next_experiment sinkOk st auth = (Except.ok (some ex), st2)) :
    (∀ c ∈ ex.crates, (ex.name, c) ∉ st2.completedCrates)
    ∧ st2.completedCrates = st.completedCrates := by
  have hnextcc : (Experiment.next st (Assignee.agent auth.name)).2.completedCrates
      = st.completedCrates := by
    unfold Experiment.next
    cases run_by st (Assignee.agent auth.name) with
    | some ex0 => rfl
    | none =>
      cases st.experiments.find? isQueued with
      | some ex0 => rfl
      | none => rfl
  unfold endpoint_next_experiment at h
  rcases hnext : Experiment.next st (Assignee.agent auth.name) with ⟨r, stX⟩
  rw [hnext] at h hnextcc
  cases r with
  | none =>
    dsimp only at h
    simp at h
  | some p =>
    obtain ⟨isNew, ex0⟩ := p
    dsimp only at h
    have key : ∀ stY : ServerState, stY.completedCrates = st.completedCrates →
        (Except.ok (some (Experiment.remove_completed_crates stY ex0)),
          stY) = ((Except.ok (some ex), st2) : Except String (Option Experiment) × ServerState) →
        (∀ c ∈ ex.crates, (ex.name, c) ∉ st2.completedCrates)
          ∧ st2.completedCrates = st.completedCrates := by
      intro stY hcc heq
      rw [Prod.mk.injEq] at heq
      obtain ⟨h1, h2⟩ := heq
      have hex : Experiment.remove_completed_crates stY ex0 = ex :=
        Option.some.inj (Except.ok.inj h1)
      subst h2
      subst hex
      refine ⟨?_, hcc⟩
      intro c hc
      have hmem := List.mem_filter.mp hc
      have := of_decide_eq_true hmem.2
      rw [hcc] at this
      rw [hcc]
      exact this
    cases isNew with
    | false => exact key stX hnextcc h
    | true =>
      cases hgi : ex0.github_issue with
      | none =>
        rw [hgi] at h
        exact key stX hnextcc h
      | some issue =>
        rw [hgi] at h
        cases sinkOk with
        | false => simp [sendMessage] at h
        | true =>
          exact key
            { stX with notificationsSent := stX.notificationsSent
                ++ [(issue.api_url, notificationLine ex0.name auth.name)] }
            hnextcc h

/-- Claim C10 witness: redelivery to the already-assigned agent of an
experiment with one of its work-items completed returns it stripped. -/
theorem next_experiment_strips_completed_witness :
    endpoint_next_experiment true
        { baseState [exRunningA] with completedCrates := [("ra", "gamma")] } ⟨"a", none⟩
      = (Except.ok (some { exRunningA with crates := [] }),
         { baseState [exRunningA] with completedCrates := [("ra", "gamma")] })
    ∧ ((∀ c ∈ ({ exRunningA with crates := [] } : Experiment).crates,
          (({ exRunningA with crates := [] } : Experiment).name, c)
            ∉ ({ baseState [exRunningA] with
                  completedCrates := [("ra", "gamma")] } : ServerState).completedCrates)
      ∧ ({ baseState [exRunningA] with
            completedCrates := [("ra", "gamma")] } : ServerState).completedCrates
          = ({ baseState [exRunningA] with
                completedCrates := [("ra", "gamma")] } : ServerState).completedCrates) :=
  ⟨by rfl,
   next_experiment_strips_completed true
     { baseState [exRunningA] with completedCrates := [("ra", "gamma")] } ⟨"a", none⟩
     { exRunningA with crates := [] }
     { baseState [exRunningA] with completedCrates := [("ra", "gamma")] }
     (by rfl)⟩

end Crater
